import Mathlib

/-
Verification of the DOAJ journal-data preparation pipeline
(tabular/doaj: 1_prepare-doajdata-fromcsv.py and 3_investigate_fees.py).
The Python functions are shallowly embedded as Lean functions: cells are
strings, tables are lists of rows, money amounts are exact rationals, and
the pandas column operations become list maps and filters.
-/

/- ## String utilities (substring search, as used by the "in" operator) -/

/-- Boolean test that pat is an initial segment of s. -/
def headMatch : List Char → List Char → Bool
  | [], _ => true
  | _ :: _, [] => false
  | p :: ps, c :: cs => (p = c) && headMatch ps cs

/-- Boolean test that pat occurs contiguously somewhere in s. -/
def subOccurs (pat : List Char) : List Char → Bool
  | [] => headMatch pat []
  | c :: cs => headMatch pat (c :: cs) || subOccurs pat cs

/-- Embedding of the Python expression (pat in s) on strings. -/
def strContains (s pat : String) : Bool :=
  subOccurs pat.toList s.toList

/- ## Subject domain classifier (simplify, 1_prepare-doajdata-fromcsv.py) -/

/-- Ordered keyword/label pairs, one per branch of the if/elif chain of
simplify, in source order. -/
def subjectPairs : List (String × String) :=
  [("Social", "SocialSciences"),
   ("Science", "Science"),
   ("Biology", "Science"),
   ("Chemistry", "Science"),
   ("Medicine", "Medicine"),
   ("History", "Humanities"),
   ("history", "Humanities"),
   ("Philosophy", "Humanities"),
   ("Language", "Humanities"),
   ("Literature", "Humanities"),
   ("Music", "Humanities"),
   ("Arts", "Humanities"),
   ("Museums", "Humanities"),
   ("Law", "SocialSciences"),
   ("Political", "SocialSciences"),
   ("Psychology", "SocialSciences"),
   ("Geography", "SocialSciences"),
   ("Technology", "Technology"),
   ("Agriculture", "Agriculture"),
   ("Education", "Education"),
   ("Library", "LIS"),
   ("Information", "LIS"),
   ("General", "General")]

/-- First-match-wins search through an ordered keyword/label list. -/
def findLabel (s : String) : List (String × String) → String
  | [] => "other"
  | p :: rest => if strContains s p.1 then p.2 else findLabel s rest

/-- Embedding of simplify: the if/elif substring chain over the subjects
cell, written as the first-match search over the ordered pairs. -/
def simplify (subjects : String) : String :=
  findLabel subjects subjectPairs

/-- Closed set of domain labels from the specification glossary. -/
def domainLabels : List String :=
  ["SocialSciences", "Science", "Medicine", "Humanities", "Technology",
   "Agriculture", "Education", "LIS", "General", "other"]

lemma findLabel_mem_or (s : String) (l : List (String × String)) :
    findLabel s l = "other" ∨ findLabel s l ∈ l.map Prod.snd := by
  induction l with
  | nil => exact Or.inl rfl
  | cons p t ih =>
    simp only [findLabel]
    by_cases h : strContains s p.1 = true
    · rw [if_pos h]
      exact Or.inr (by rw [List.map_cons]; exact List.mem_cons_self _ _)
    · rw [if_neg h]
      rcases ih with h1 | h1
      · exact Or.inl h1
      · exact Or.inr (by rw [List.map_cons]; exact List.mem_cons_of_mem _ h1)

lemma findLabel_other (s : String) (l : List (String × String))
    (h : (l.all fun p => !strContains s p.1) = true) :
    findLabel s l = "other" := by
  induction l with
  | nil => rfl
  | cons p t ih =>
    simp only [List.all_cons, Bool.and_eq_true, Bool.not_eq_true'] at h
    simp [findLabel, h.1, ih (by simpa using h.2)]

/-- C1: the subject-domain classifier is a total function on subject
strings: it always returns one label from the closed set of domain labels,
by first-match-wins ordered substring search; a subject string containing
both "Social" and "Science" classifies as "SocialSciences", and a string
matching no keyword classifies as "other". -/
theorem C1_subject_domain_classifier (s : String) :
    simplify s ∈ domainLabels ∧
    (strContains s "Social" = true → strContains s "Science" = true →
      simplify s = "SocialSciences") ∧
    ((subjectPairs.all fun p => !strContains s p.1) = true →
      simplify s = "other") := by
  refine ⟨?_, ?_, ?_⟩
  · rcases findLabel_mem_or s subjectPairs with h | h
    · rw [simplify, h]; decide
    · have hsub : ∀ x ∈ subjectPairs.map Prod.snd, x ∈ domainLabels := by decide
      exact hsub _ h
  · intro h1 _
    simp [simplify, subjectPairs, findLabel, h1]
  · intro h
    exact findLabel_other s subjectPairs h

/-- Witness for C1 at concrete subject strings. -/
theorem C1_subject_domain_classifier_witness :
    simplify "Social Sciences: Science" ∈ domainLabels ∧
    simplify "Social Sciences: Science" = "SocialSciences" ∧
    simplify "Zoology" = "other" :=
  ⟨(C1_subject_domain_classifier "Social Sciences: Science").1,
   (C1_subject_domain_classifier "Social Sciences: Science").2.1
     (by decide) (by decide),
   (C1_subject_domain_classifier "Zoology").2.2 (by decide)⟩

/- ## Fee parsing and currency normalization (3_investigate_fees.py) -/

/-- ASCII uppercase letter test, the character class of the currency
pattern. -/
def isUpperChar (c : Char) : Bool := 'A' ≤ c && c ≤ 'Z'

/-- Decimal value of a run of digit characters, as read by int(). -/
def digitsVal (ds : List Char) : Nat :=
  ds.foldl (fun a c => 10 * a + (c.toNat - 48)) 0

/-- Embedding of identify_amount: the leading run of decimal digits of the
cell text, or 0 when the text does not start with a digit. -/
def identify_amount (x : String) : Nat :=
  let ds := x.toList.takeWhile Char.isDigit
  if ds = [] then 0 else digitsVal ds

/-- First maximal run of uppercase letters in a character list, if any. -/
def firstUpperRun : List Char → Option (List Char)
  | [] => none
  | c :: cs =>
    if isUpperChar c then some (c :: cs.takeWhile isUpperChar)
    else firstUpperRun cs

/-- Embedding of identify_currency: the first run of uppercase letters
anywhere in the cell text, or the sentinel "XXX" when there is none. -/
def identify_currency (x : String) : String :=
  match firstUpperRun x.toList with
  | some r => String.mk r
  | none => "XXX"

/-- Ordered currency/rate pairs, one per branch of the if/elif chain of
calculate_eur, in source order (the duplicated ZAR and PKR branches of the
source are kept; they are unreachable, as in the source). -/
def conversion_rates : List (String × ℚ) :=
  [("EUR", 1), ("USD", 0.8919), ("IDR", 0.00006091), ("PLN", 0.2147),
   ("GDP", 1.1274), ("INR", 0.0109), ("JPY", 0.006615), ("BRL", 0.1805),
   ("NOK", 0.08439), ("CHF", 0.9940), ("ZAR", 0.04854), ("MXN", 0.05019),
   ("ZAR", 0.04854), ("PKR", 0.003145), ("ARS", 0.003942),
   ("RSD", 0.008380), ("RUB", 0.01162), ("IQD", 0.0006807),
   ("CAD", 0.6668), ("RON", 0.1995), ("UAH", 0.02438), ("EGP", 0.02890),
   ("CNY", 0.1290), ("IRR", 0.00002123), ("SGD", 0.6732),
   ("AUD", 0.6021), ("CZK", 0.04203), ("GHS", 0.0770),
   ("KPW", 0.002013), ("KZT", 0.002013), ("KRW", 0.0006768),
   ("MAD", 0.08927), ("MDL", 0.05021), ("NGN", 0.001937),
   ("PEN", 0.2414), ("PKR", 0.003145), ("SYP", 0.0003550),
   ("THB", 0.02627), ("TRY", 0.04574), ("VND", 0.00003804),
   ("XAF", 0.001524), ("XOF", 0.001524), ("YER", 0.003564)]

/-- Body of calculate_eur after the two extractions: magnitude 0 or an
unmatched currency code degrade to amount 0 with the "XXX" sentinel,
otherwise the amount converts at the first matching rate. The pair also
records the final value of the local currency variable. -/
def convert_fee (apc_num : Nat) (apc_curr : String) : ℚ × String :=
  if apc_num = 0 then (0, "XXX")
  else
    match conversion_rates.find? (fun p => p.1 == apc_curr) with
    | some p => ((apc_num : ℚ) * p.2, apc_curr)
    | none => (0, "XXX")

/-- Embedding of calculate_eur, keeping both the EUR amount and the final
currency code. -/
def calculate_eur_full (x : String) : ℚ × String :=
  convert_fee (identify_amount x) (identify_currency x)

/-- Return value of calculate_eur in the source: the EUR amount alone. -/
def calculate_eur (x : String) : ℚ :=
  (calculate_eur_full x).1

lemma find_rate_none (c : String) (h : c ∉ conversion_rates.map Prod.fst) :
    conversion_rates.find? (fun p => p.1 == c) = none := by
  apply List.find?_eq_none.mpr
  intro p hp
  simp only [beq_iff_eq]
  intro he
  exact h (he ▸ List.mem_map_of_mem Prod.fst hp)

/-- C2: fee-normalization round trip on the three specified examples.
Input "500USD" has magnitude 500 and currency "USD" and converts at the
fixed USD rate; a digitless input such as "APC" degrades to magnitude 0
with the "XXX" sentinel and amount 0; input "USD" alone has magnitude 0
and amount 0 despite its currency matching the table. -/
theorem C2_fee_roundtrip :
    identify_amount "500USD" = 500 ∧
    identify_currency "500USD" = "USD" ∧
    calculate_eur_full "500USD" = (500 * (0.8919 : ℚ), "USD") ∧
    identify_amount "APC" = 0 ∧
    calculate_eur_full "APC" = (0, "XXX") ∧
    identify_amount "USD" = 0 ∧
    calculate_eur_full "USD" = (0, "XXX") := by
  refine ⟨by decide, by decide, ?_, by decide, ?_, by decide, ?_⟩
  · have h1 : identify_amount "500USD" = 500 := by decide
    have h2 : identify_currency "500USD" = "USD" := by decide
    simp [calculate_eur_full, h1, h2, convert_fee, conversion_rates]
  · have h1 : identify_amount "APC" = 0 := by decide
    simp [calculate_eur_full, h1, convert_fee]
  · have h1 : identify_amount "USD" = 0 := by decide
    simp [calculate_eur_full, h1, convert_fee]

/-- C4: the currency normalizer is total (it is a Lean function on all
strings) and degrades to the zero amount and the "XXX" sentinel whenever
the extracted magnitude is 0 or the extracted currency code is not in the
rate table. -/
theorem C4_normalizer_degrades (x : String)
    (h : identify_amount x = 0 ∨
      identify_currency x ∉ conversion_rates.map Prod.fst) :
    calculate_eur_full x = (0, "XXX") := by
  rcases h with h | h
  · simp [calculate_eur_full, convert_fee, h]
  · have hn := find_rate_none _ h
    simp only [calculate_eur_full, convert_fee, hn]
    split <;> rfl

/-- Witness for C4 at a cell whose currency code is not in the table. -/
theorem C4_normalizer_degrades_witness :
    calculate_eur_full "350FJD" = (0, "XXX") :=
  C4_normalizer_degrades "350FJD" (Or.inr (by decide))

/-- C9: the rate table has an entry "GDP" at rate 1.1274 but none for the
ISO pound-sterling code "GBP"; any cell whose extracted currency is "GBP"
degrades to the zero/"XXX" sentinel, while a cell with currency "GDP" and
non-zero magnitude converts at 1.1274. -/
theorem C9_gdp_without_gbp :
    ("GDP", (1.1274 : ℚ)) ∈ conversion_rates ∧
    "GBP" ∉ conversion_rates.map Prod.fst ∧
    (∀ x, identify_currency x = "GBP" → calculate_eur_full x = (0, "XXX")) ∧
    (∀ x, identify_currency x = "GDP" → identify_amount x ≠ 0 →
      calculate_eur_full x = ((identify_amount x : ℚ) * 1.1274, "GDP")) := by
  refine ⟨by simp [conversion_rates], by decide, ?_, ?_⟩
  · intro x hx
    have hn : conversion_rates.find? (fun p => p.1 == "GBP") = none :=
      find_rate_none "GBP" (by decide)
    rcases h0 : identify_amount x with _ | n
    · simp [calculate_eur_full, convert_fee, h0]
    · simp [calculate_eur_full, convert_fee, h0, hx, hn]
  · intro x hx hn0
    have hf : conversion_rates.find? (fun p => p.1 == "GDP") =
        some ("GDP", 1.1274) := by rfl
    simp [calculate_eur_full, convert_fee, hx, hn0, hf]

/-- Witness for C9 at concrete fee cells. -/
theorem C9_gdp_without_gbp_witness :
    calculate_eur_full "250GBP" = (0, "XXX") ∧
    calculate_eur_full "250GDP" =
      ((identify_amount "250GDP" : ℚ) * 1.1274, "GDP") :=
  ⟨C9_gdp_without_gbp.2.2.1 "250GBP" (by decide),
   C9_gdp_without_gbp.2.2.2 "250GDP" (by decide) (by decide)⟩

/- ## Characterization of the two extraction functions (claim C5) -/

lemma all_takeWhile_append {p : Char → Bool} {l1 l2 : List Char}
    (h1 : l1.all p = true)
    (h2 : (l2.head?.all fun c => !p c) = true) :
    (l1 ++ l2).takeWhile p = l1 := by
  induction l1 with
  | nil =>
    cases l2 with
    | nil => rfl
    | cons c cs =>
      simp only [List.head?_cons, Option.all_some, Bool.not_eq_true'] at h2
      simp [List.takeWhile_cons, h2]
  | cons a t ih =>
    simp only [List.all_cons, Bool.and_eq_true] at h1
    simp [List.takeWhile_cons, h1.1, ih h1.2]

lemma identify_amount_append (ds rest : List Char)
    (hds : ds.all Char.isDigit = true)
    (hrest : (rest.head?.all fun c => !c.isDigit) = true) :
    identify_amount (String.mk (ds ++ rest)) = digitsVal ds := by
  have ht : (ds ++ rest).takeWhile Char.isDigit = ds :=
    all_takeWhile_append hds hrest
  simp only [identify_amount]
  rw [show (String.mk (ds ++ rest)).toList = ds ++ rest from rfl, ht]
  by_cases hd : ds = []
  · subst hd
    simp [digitsVal]
  · simp [hd]

lemma identify_amount_zero (y : String)
    (h : (y.toList.head?.all fun c => !c.isDigit) = true) :
    identify_amount y = 0 := by
  have ht : y.toList.takeWhile Char.isDigit = [] := by
    cases hy : y.toList with
    | nil => rfl
    | cons c cs =>
      rw [hy] at h
      simp only [List.head?_cons, Option.all_some, Bool.not_eq_true'] at h
      simp [List.takeWhile_cons, h]
  unfold identify_amount
  rw [ht]
  simp

lemma firstUpperRun_none (l : List Char)
    (h : (l.all fun c => !isUpperChar c) = true) :
    firstUpperRun l = none := by
  induction l with
  | nil => rfl
  | cons c cs ih =>
    simp only [List.all_cons, Bool.and_eq_true, Bool.not_eq_true'] at h
    simp [firstUpperRun, h.1, ih h.2]

lemma firstUpperRun_found (pre run tl : List Char)
    (hpre : (pre.all fun c => !isUpperChar c) = true)
    (hne : run ≠ [])
    (hrun : run.all isUpperChar = true)
    (htl : (tl.head?.all fun c => !isUpperChar c) = true) :
    firstUpperRun (pre ++ (run ++ tl)) = some run := by
  induction pre with
  | nil =>
    cases run with
    | nil => exact absurd rfl hne
    | cons c cs =>
      simp only [List.all_cons, Bool.and_eq_true] at hrun
      simp only [List.nil_append, List.cons_append, firstUpperRun, hrun.1,
        if_true, List.append_eq]
      rw [all_takeWhile_append hrun.2 htl]
  | cons a t ih =>
    simp only [List.all_cons, Bool.and_eq_true, Bool.not_eq_true'] at hpre
    simp [firstUpperRun, hpre.1, ih hpre.2]

lemma identify_currency_none (y : String)
    (h : (y.toList.all fun c => !isUpperChar c) = true) :
    identify_currency y = "XXX" := by
  unfold identify_currency
  rw [firstUpperRun_none y.toList h]

/-- C5: extraction semantics. The magnitude of a cell that decomposes as a
digit run followed by text not starting with a digit is the decimal value
of that run (0 when the run is empty); the currency of a cell that
decomposes as a non-uppercase part, a non-empty uppercase run, and text
not starting with an uppercase letter, is exactly that run; a cell with no
uppercase letter at all gets the sentinel "XXX", and a cell not starting
with a digit gets magnitude 0. -/
theorem C5_extraction_semantics (ds rest pre run tl : List Char)
    (hds : ds.all Char.isDigit = true)
    (hrest : (rest.head?.all fun c => !c.isDigit) = true)
    (hpre : (pre.all fun c => !isUpperChar c) = true)
    (hne : run ≠ [])
    (hrun : run.all isUpperChar = true)
    (htl : (tl.head?.all fun c => !isUpperChar c) = true) :
    identify_amount (String.mk (ds ++ rest)) = digitsVal ds ∧
    identify_currency (String.mk (pre ++ (run ++ tl))) = String.mk run ∧
    (∀ y : String, (y.toList.head?.all fun c => !c.isDigit) = true →
      identify_amount y = 0) ∧
    (∀ y : String, (y.toList.all fun c => !isUpperChar c) = true →
      identify_currency y = "XXX") := by
  refine ⟨identify_amount_append ds rest hds hrest, ?_,
    fun y hy => identify_amount_zero y hy,
    fun y hy => identify_currency_none y hy⟩
  unfold identify_currency
  rw [show (String.mk (pre ++ (run ++ tl))).toList = pre ++ (run ++ tl)
    from rfl]
  rw [firstUpperRun_found pre run tl hpre hne hrun htl]

/-- Witness for C5 at a concrete decomposition of concrete fee cells. -/
theorem C5_extraction_semantics_witness :
    identify_amount (String.mk (['7', '5', '0'] ++ " EUR".toList)) =
      digitsVal ['7', '5', '0'] ∧
    identify_currency
      (String.mk ("750 ".toList ++ ("EUR".toList ++ " fee".toList))) =
      String.mk "EUR".toList ∧
    identify_amount "no fee" = 0 ∧
    identify_currency "no fee" = "XXX" := by
  have h := C5_extraction_semantics ['7', '5', '0'] " EUR".toList
    "750 ".toList "EUR".toList " fee".toList
    (by decide) (by decide) (by decide) (by decide) (by decide) (by decide)
  exact ⟨h.1, h.2.1, h.2.2.1 "no fee" (by decide),
    h.2.2.2 "no fee" (by decide)⟩

/- ## Added-date median and the created-early flag (claim C3) -/

/-- Median in the numpy sense: sort, take the middle element for odd
length and the mean of the two middle elements for even length. -/
def np_median (l : List ℚ) : ℚ :=
  let s := l.insertionSort (fun a b => a ≤ b)
  if s.length % 2 = 1 then s.getD (s.length / 2) 0
  else (s.getD (s.length / 2 - 1) 0 + s.getD (s.length / 2) 0) / 2

/-- Row slice of the prepared table used by the created-early derivation:
the completeness key and the added-date year. -/
structure JRow where
  eissn : Option String
  addedDateYear : ℤ
deriving DecidableEq

/-- Row after simplify_values added the created-early column. -/
structure JRowE extends JRow where
  createdEarly : Bool
deriving DecidableEq

/-- Added-date years of a table, as compared against the numpy median. -/
def added_years (rows : List JRow) : List ℚ :=
  rows.map fun r => (r.addedDateYear : ℚ)

/-- Embedding of the created-early derivation of simplify_values: one pass
computing the median of the whole current population, then the per-row
strict comparison. -/
def simplify_values_early (rows : List JRow) : List JRowE :=
  rows.map fun r =>
    { toJRow := r,
      createdEarly :=
        decide ((r.addedDateYear : ℚ) < np_median (added_years rows)) }

/-- Embedding of filter_incomplete_data: dropna on the EISSN column. -/
def filter_incomplete_early (rows : List JRowE) : List JRowE :=
  rows.filter fun r => r.eissn.isSome

/-- Pipeline order of main: simplify_values runs before
filter_incomplete_data, so the median population is the pre-filter one. -/
def pipeline_early (rows : List JRow) : List JRowE :=
  filter_incomplete_early (simplify_values_early rows)

/-- C3: every row surviving the pipeline carries created-early true
exactly when its added-date year is strictly below the median of the
added-date years of the pre-filter population, with equality mapping to
false; the median is the one taken before completeness filtering. -/
theorem C3_created_early (rows : List JRow) (r : JRowE)
    (hr : r ∈ pipeline_early rows) :
    (r.createdEarly = true ↔
      (r.addedDateYear : ℚ) < np_median (added_years rows)) ∧
    ((r.addedDateYear : ℚ) = np_median (added_years rows) →
      r.createdEarly = false) := by
  simp only [pipeline_early, filter_incomplete_early] at hr
  have hr2 := (List.mem_filter.mp hr).1
  simp only [simplify_values_early, List.mem_map] at hr2
  obtain ⟨r0, _, rfl⟩ := hr2
  refine ⟨by simp, ?_⟩
  intro he
  simp only [he]
  simp

/-- Witness for C3 on a concrete three-row table with one incomplete
row. -/
theorem C3_created_early_witness :
    ((2010 : ℤ) : ℚ) < np_median (added_years
      [{ eissn := some "1234-5678", addedDateYear := 2010 },
       { eissn := none, addedDateYear := 2015 },
       { eissn := some "9999-0000", addedDateYear := 2020 }]) := by
  have h := C3_created_early
    [{ eissn := some "1234-5678", addedDateYear := 2010 },
     { eissn := none, addedDateYear := 2015 },
     { eissn := some "9999-0000", addedDateYear := 2020 }]
    { toJRow := { eissn := some "1234-5678", addedDateYear := 2010 },
      createdEarly := true }
    (by decide)
  exact h.1.mp rfl

/- ## External enrichment lookup (lookup / add_external_data) -/

/-- Row of the country reference table. The indicator cells are None when
the int() conversion of the stored value fails, Some of the converted
integer otherwise; the unused year column is dropped before lookup. -/
structure CountryRec where
  stateLabel : String
  gdp : Option ℤ
  population : Option ℤ
deriving DecidableEq

/-- Column selection of the reference table by label. -/
def colValue (c : CountryRec) (label : String) : Option ℤ :=
  if label = "gdp" then c.gdp
  else if label = "population" then c.population
  else none

/-- Embedding of lookup: item() demands exactly one row of the reference
table whose stateLabel equals the country; every failure (no match,
several matches, failed int() conversion) is caught and becomes 0. -/
def lookup (country : String) (countrydata : List CountryRec)
    (label : String) : ℤ :=
  match countrydata.filter (fun c => c.stateLabel == country) with
  | [c] => (colValue c label).getD 0
  | _ => 0

/-- Country cell of a row as seen by lookup: a missing country compares
unequal to every stateLabel, so it ends in the 0 branch. -/
def lookup_row (country : Option String) (countrydata : List CountryRec)
    (label : String) : ℤ :=
  match country with
  | some s => lookup s countrydata label
  | none => 0

/- ## One-hot encoding and the tail of the main pipeline -/

/-- Row slice before one-hot encoding: completeness key, country and the
derived domain label. -/
structure PRow where
  eissn : Option String
  publisherCountry : Option String
  domain : String
deriving DecidableEq

/-- Row after one_hot_encoding: the indicator columns for the distinct
country values and the distinct domain values, and the two enrichment
columns added later (0 before add_external_data runs). -/
structure ORow extends PRow where
  countryHot : List Bool
  domainHot : List Bool
  gdp : ℤ := 0
  population : ℤ := 0
deriving DecidableEq

/-- Embedding of one_hot_encoding for the country and domain columns: one
boolean indicator per distinct value present in the data; a missing
country contributes no column and sets no indicator. -/
def one_hot_encoding (rows : List PRow) : List ORow :=
  let cvals := (rows.filterMap fun r => r.publisherCountry).dedup
  let dvals := (rows.map fun r => r.domain).dedup
  rows.map fun r =>
    { toPRow := r,
      countryHot := cvals.map fun v => decide (r.publisherCountry = some v),
      domainHot := dvals.map fun v => decide (r.domain = v) }

/-- Embedding of filter_incomplete_data on the one-hot rows. -/
def filter_incomplete_data (rows : List ORow) : List ORow :=
  rows.filter fun r => r.eissn.isSome

/-- Embedding of add_external_data: attach gdp and population by lookup
into the reference table, leaving every other column unchanged. -/
def add_external_data (countrydata : List CountryRec)
    (rows : List ORow) : List ORow :=
  rows.map fun r =>
    { r with gdp := lookup_row r.publisherCountry countrydata "gdp",
             population := lookup_row r.publisherCountry countrydata
               "population" }

lemma lookup_single (s : String) (cd : List CountryRec) (label : String)
    (c : CountryRec) (hf : cd.filter (fun e => e.stateLabel == s) = [c]) :
    lookup s cd label = (colValue c label).getD 0 := by
  unfold lookup
  rw [hf]

lemma lookup_absent (s : String) (cd : List CountryRec) (label : String)
    (hf : cd.filter (fun e => e.stateLabel == s) = []) :
    lookup s cd label = 0 := by
  unfold lookup
  rw [hf]

lemma lookup_multi (s : String) (cd : List CountryRec) (label : String)
    (hf : 2 ≤ (cd.filter (fun e => e.stateLabel == s)).length) :
    lookup s cd label = 0 := by
  unfold lookup
  rcases hfil : cd.filter (fun e => e.stateLabel == s) with _ | ⟨a, _ | ⟨b, t⟩⟩
  · rw [hfil]
  · rw [hfil] at hf
    simp at hf
  · rw [hfil]

lemma lookup_row_some (s : String) (cd : List CountryRec)
    (label : String) : lookup_row (some s) cd label = lookup s cd label :=
  rfl

/-- C7: for every enriched row with a country label, a unique verbatim
match in the reference table with convertible cells yields those exact
values; an absent label, an ambiguous label, or a failed conversion
yields 0, and no case is an error. -/
theorem C7_enrichment_join (cd : List CountryRec) (rows : List ORow)
    (r : ORow) (hr : r ∈ add_external_data cd rows) :
    (∀ s c g p, r.publisherCountry = some s →
      cd.filter (fun e => e.stateLabel == s) = [c] →
      c.gdp = some g → c.population = some p →
      r.gdp = g ∧ r.population = p) ∧
    (∀ s, r.publisherCountry = some s →
      cd.filter (fun e => e.stateLabel == s) = [] →
      r.gdp = 0 ∧ r.population = 0) ∧
    (∀ s, r.publisherCountry = some s →
      2 ≤ (cd.filter (fun e => e.stateLabel == s)).length →
      r.gdp = 0 ∧ r.population = 0) ∧
    (∀ s c, r.publisherCountry = some s →
      cd.filter (fun e => e.stateLabel == s) = [c] →
      (c.gdp = none → r.gdp = 0) ∧
      (c.population = none → r.population = 0)) := by
  simp only [add_external_data, List.mem_map] at hr
  obtain ⟨r0, _, rfl⟩ := hr
  refine ⟨?_, ?_, ?_, ?_⟩
  · intro s c g p hs hf hg hp
    have hs2 : r0.publisherCountry = some s := hs
    constructor
    · show lookup_row r0.publisherCountry cd "gdp" = g
      rw [hs2, lookup_row_some, lookup_single s cd "gdp" c hf]
      simp [colValue, hg]
    · show lookup_row r0.publisherCountry cd "population" = p
      rw [hs2, lookup_row_some, lookup_single s cd "population" c hf]
      simp [colValue, hp]
  · intro s hs hf
    have hs2 : r0.publisherCountry = some s := hs
    constructor
    · show lookup_row r0.publisherCountry cd "gdp" = 0
      rw [hs2, lookup_row_some]
      exact lookup_absent s cd "gdp" hf
    · show lookup_row r0.publisherCountry cd "population" = 0
      rw [hs2, lookup_row_some]
      exact lookup_absent s cd "population" hf
  · intro s hs hf
    have hs2 : r0.publisherCountry = some s := hs
    constructor
    · show lookup_row r0.publisherCountry cd "gdp" = 0
      rw [hs2, lookup_row_some]
      exact lookup_multi s cd "gdp" hf
    · show lookup_row r0.publisherCountry cd "population" = 0
      rw [hs2, lookup_row_some]
      exact lookup_multi s cd "population" hf
  · intro s c hs hf
    have hs2 : r0.publisherCountry = some s := hs
    constructor
    · intro hg
      show lookup_row r0.publisherCountry cd "gdp" = 0
      rw [hs2, lookup_row_some, lookup_single s cd "gdp" c hf]
      simp [colValue, hg]
    · intro hp
      show lookup_row r0.publisherCountry cd "population" = 0
      rw [hs2, lookup_row_some, lookup_single s cd "population" c hf]
      simp [colValue, hp]

/-- Reference table for the C7 witness. -/
def cdW : List CountryRec :=
  [⟨"Germany", some 4000000, some 83000000⟩, ⟨"Atlantis", none, none⟩]

/-- Input row for the C7 witness. -/
def rowW : ORow where
  toPRow := ⟨some "1111-2222", some "Germany", "Science"⟩
  countryHot := []
  domainHot := []

/-- The C7 witness row after enrichment. -/
def rowWE : ORow where
  toPRow := ⟨some "1111-2222", some "Germany", "Science"⟩
  countryHot := []
  domainHot := []
  gdp := 4000000
  population := 83000000

/-- Witness for C7 on a concrete reference table and row. -/
theorem C7_enrichment_join_witness :
    rowWE.gdp = 4000000 ∧ rowWE.population = 83000000 := by
  have h := C7_enrichment_join cdW [rowW] rowWE (by decide)
  exact h.1 "Germany" ⟨"Germany", some 4000000, some 83000000⟩
    4000000 83000000 rfl (by decide) rfl rfl

/- ## Counting lemmas for the one-hot indicator columns -/

lemma count_hot_none (l : List String) :
    (l.map fun v => decide ((none : Option String) = some v)).count true
      = 0 := by
  induction l with
  | nil => rfl
  | cons a t ih => simp [List.count_cons, ih, List.count_replicate]

lemma count_decide_eq_zero {α : Type} [DecidableEq α] (x : α)
    (l : List α) (h : x ∉ l) :
    (l.map fun v => decide (x = v)).count true = 0 := by
  induction l with
  | nil => rfl
  | cons a t ih =>
    simp only [List.mem_cons, not_or] at h
    simp [List.count_cons, ih h.2, h.1]

lemma count_decide_eq_one {α : Type} [DecidableEq α] (x : α)
    (l : List α) (hn : l.Nodup) (hx : x ∈ l) :
    (l.map fun v => decide (x = v)).count true = 1 := by
  induction l with
  | nil => exact absurd hx (List.not_mem_nil x)
  | cons a t ih =>
    rw [List.nodup_cons] at hn
    rcases List.mem_cons.mp hx with rfl | hx2
    · simp [List.count_cons, count_decide_eq_zero x t hn.1]
    · have hxa : x ≠ a := fun he => hn.1 (he ▸ hx2)
      simp [List.count_cons, ih hn.2 hx2, hxa]

/-- C8: after one-hot expansion, every row of the remaining pipeline
(completeness filtering, then enrichment) has exactly one true country
indicator when its country is present and none when it is missing, and
exactly one true domain indicator. -/
theorem C8_one_hot_invariant (rows : List PRow) (cd : List CountryRec)
    (r : ORow)
    (hr : r ∈ add_external_data cd
      (filter_incomplete_data (one_hot_encoding rows))) :
    (r.countryHot.count true =
      if r.publisherCountry.isSome then 1 else 0) ∧
    r.domainHot.count true = 1 := by
  simp only [add_external_data, List.mem_map] at hr
  obtain ⟨r1, hr1, rfl⟩ := hr
  simp only [filter_incomplete_data] at hr1
  have hr2 := (List.mem_filter.mp hr1).1
  simp only [one_hot_encoding, List.mem_map] at hr2
  obtain ⟨r0, hr0, rfl⟩ := hr2
  constructor
  · show ((((rows.filterMap fun r => r.publisherCountry).dedup).map
        fun v => decide (r0.publisherCountry = some v)).count true) =
      if r0.publisherCountry.isSome then 1 else 0
    cases hc : r0.publisherCountry with
    | none => simpa using count_hot_none _
    | some c =>
      have hcm : c ∈ (rows.filterMap fun r => r.publisherCountry).dedup :=
        List.mem_dedup.mpr (List.mem_filterMap.mpr ⟨r0, hr0, hc⟩)
      simp only [Option.isSome_some, if_true, Option.some.injEq]
      exact count_decide_eq_one c _ (List.nodup_dedup _) hcm
  · show (((rows.map fun r => r.domain).dedup).map
        fun v => decide (r0.domain = v)).count true = 1
    exact count_decide_eq_one r0.domain _ (List.nodup_dedup _)
      (List.mem_dedup.mpr (List.mem_map_of_mem _ hr0))

/-- Two-row input table for the C8 witness: one row with a country and
one row without. -/
def rowsH : List PRow :=
  [⟨some "1111-2222", some "Germany", "Science"⟩,
   ⟨some "3333-4444", none, "other"⟩]

/-- One-hot image of the countryless C8 witness row. -/
def rowH : ORow where
  toPRow := ⟨some "3333-4444", none, "other"⟩
  countryHot := [false]
  domainHot := [false, true]

/-- Witness for C8 on the concrete two-row table. -/
theorem C8_one_hot_invariant_witness :
    rowH.countryHot.count true = 0 ∧ rowH.domainHot.count true = 1 := by
  have h := C8_one_hot_invariant rowsH [] rowH (by decide)
  exact ⟨h.1, h.2⟩

/- ## Table-wide Yes/No normalization (simplify_values) -/

/-- Embedding of a scalar pandas replace with regex disabled: a cell is
replaced only when its entire value equals the target string. -/
def replace_cell (old new cell : String) : String :=
  if cell = old then new else cell

/-- Embedding of the two table-wide replace calls of simplify_values:
every cell of every column, first Yes to True, then No to False. -/
def yes_no_normalize (table : List (List String)) : List (List String) :=
  (table.map fun row => row.map (replace_cell "Yes" "True")).map
    fun row => row.map (replace_cell "No" "False")

/-- Per-cell composite of the two replaces. -/
def yes_no_cell (cell : String) : String :=
  replace_cell "No" "False" (replace_cell "Yes" "True" cell)

/-- C10: the Yes/No normalization acts cell by cell over the whole table,
rewrites a cell exactly equal to "Yes" to the string "True" and a cell
exactly equal to "No" to the string "False", and leaves every other cell
unchanged, in particular any cell merely containing "Yes" or "No" as part
of a longer value. -/
theorem C10_yes_no_exact_cells (table : List (List String)) :
    yes_no_normalize table = table.map (fun row => row.map yes_no_cell) ∧
    yes_no_cell "Yes" = "True" ∧
    yes_no_cell "No" = "False" ∧
    (∀ cell, cell ≠ "Yes" → cell ≠ "No" → yes_no_cell cell = cell) ∧
    (∀ cell, strContains cell "Yes" = true → cell ≠ "Yes" →
      cell ≠ "No" → yes_no_cell cell = cell) := by
  refine ⟨?_, rfl, rfl, ?_, ?_⟩
  · simp [yes_no_normalize, List.map_map, Function.comp, yes_no_cell]
  · intro cell h1 h2
    simp [yes_no_cell, replace_cell, h1, h2]
  · intro cell _ h1 h2
    simp [yes_no_cell, replace_cell, h1, h2]

/-- Witness for C10 at concrete cells, one of them containing "Yes" as a
proper substring. -/
theorem C10_yes_no_exact_cells_witness :
    yes_no_cell "Yes" = "True" ∧
    yes_no_cell "Yesterday" = "Yesterday" ∧
    strContains "Yesterday" "Yes" = true :=
  ⟨(C10_yes_no_exact_cells [["Yes", "Yesterday"]]).2.1,
   (C10_yes_no_exact_cells [["Yes", "Yesterday"]]).2.2.2.2 "Yesterday"
     (by decide) (by decide) (by decide),
   by decide⟩

/- ## Columns of the secondary fee dataset (3_investigate_fees.py) -/

/-- Columns selected by read_csv of 3_investigate_fees.py. -/
def fee_input_columns : List String :=
  ["EISSN", "title", "publisher-country", "APC", "APC-amount", "CCBY",
   "domain"]

/-- Column effect of apc_in_eur: the derived APC-EUR column is appended;
sorting changes no column. -/
def apc_in_eur_columns (cols : List String) : List String :=
  cols ++ ["APC-EUR"]

/-- Columns of the secondary output dataset written by save_data. -/
def fee_output_columns : List String :=
  apc_in_eur_columns fee_input_columns

/-- Field list asserted by the specification for the secondary output
(title, country, APC flag, raw amount, normalized amount, currency,
domain), for comparison with the columns the code writes. -/
def spec_fee_output_fields : List String :=
  ["title", "publisher-country", "APC", "APC-amount", "APC-EUR",
   "currency", "domain"]

/-- C6 counterexample: the written columns are not the specified field
set. The output keeps EISSN and CCBY, which are outside the specified
seven fields, writes eight columns rather than seven, and contains no
currency column. -/
theorem C6_output_fields_counterexample :
    "EISSN" ∈ fee_output_columns ∧ "EISSN" ∉ spec_fee_output_fields ∧
    "CCBY" ∈ fee_output_columns ∧ "CCBY" ∉ spec_fee_output_fields ∧
    "currency" ∉ fee_output_columns ∧
    fee_output_columns.length = 8 ∧ spec_fee_output_fields.length = 7 := by
  decide

/-- C6 amended: the secondary output dataset contains exactly the fields
EISSN, title, country, APC flag, raw fee amount, CCBY flag, domain and
the normalized amount, in this order; the extracted currency code is not
written as a column. -/
theorem C6_output_fields_amended :
    fee_output_columns =
      ["EISSN", "title", "publisher-country", "APC", "APC-amount", "CCBY",
       "domain", "APC-EUR"] := by
  decide
